import Mathlib

/-
Verification of the student-portal manager (src/main.go).

The Go program keeps an in-memory manager:

  type InMemoryStudentManager struct {
    sync.Mutex
    students             []model.Student
    studentStudyPrograms map[string]string
    failedLoginAttempts  map[string]int
  }

We embed the manager state as a Lean structure.  Go maps are embedded as
association lists with first-match lookup and replace-first-or-append
update; reading a missing key of a map[string]int yields the zero value,
which the increment helper reproduces.  Each public operation is a pure
function from the manager state to a result paired with the next state;
the Go (string, error) return value becomes Except String String carrying
the exact message strings of the source.
-/

namespace StudentPortal

instance {α β : Type} [DecidableEq α] [DecidableEq β] : DecidableEq (Except α β) :=
  fun x y =>
    match x, y with
    | Except.ok a, Except.ok b =>
        if h : a = b then Decidable.isTrue (congrArg Except.ok h)
        else Decidable.isFalse (fun hc => h (Except.ok.inj hc))
    | Except.error a, Except.error b =>
        if h : a = b then Decidable.isTrue (congrArg Except.error h)
        else Decidable.isFalse (fun hc => h (Except.error.inj hc))
    | Except.ok _, Except.error _ => Decidable.isFalse (fun hc => Except.noConfusion hc)
    | Except.error _, Except.ok _ => Decidable.isFalse (fun hc => Except.noConfusion hc)

/-- A student record, mirroring model.Student: ID, Name, StudyProgram. -/
structure Student where
  ID : String
  Name : String
  StudyProgram : String
deriving DecidableEq, Repr

/-- First-match lookup in an association list, mirroring a Go map read
together with its ok flag: none means the key is absent. -/
def mapLookup {β : Type} : List (String × β) → String → Option β
  | [], _ => none
  | (k, v) :: rest, key => if k = key then some v else mapLookup rest key

/-- Store a value under a key: replace the first binding of the key, or
append a fresh binding, mirroring a Go map assignment m[k] = v. -/
def mapSet {β : Type} : List (String × β) → String → β → List (String × β)
  | [], key, v => [(key, v)]
  | (k, w) :: rest, key, v =>
      if k = key then (key, v) :: rest else (k, w) :: mapSet rest key v

/-- Increment a counter entry, mirroring the Go statement m[k]++ on a
map[string]int: a missing key counts as zero, so it becomes one. -/
def mapIncr (m : List (String × Nat)) (key : String) : List (String × Nat) :=
  mapSet m key ((mapLookup m key).getD 0 + 1)

/-- The manager state: the record collection, the study-program catalog and
the per-id failed-login counters (fields of InMemoryStudentManager). -/
structure ManagerState where
  students : List Student
  studentStudyPrograms : List (String × String)
  failedLoginAttempts : List (String × Nat)
deriving DecidableEq, Repr

/-- NewInMemoryStudentManager (src/main.go lines 33-48): three seeded
records, a four-entry catalog, and an empty attempt-counter map. -/
def NewInMemoryStudentManager : ManagerState :=
  { students :=
      [ { ID := "A12345", Name := "Aditira", StudyProgram := "TI" },
        { ID := "B21313", Name := "Dito", StudyProgram := "TK" },
        { ID := "A34555", Name := "Afis", StudyProgram := "MI" } ],
    studentStudyPrograms :=
      [ ("TI", "Teknik Informatika"),
        ("TK", "Teknik Komputer"),
        ("SI", "Sistem Informasi"),
        ("MI", "Manajemen Informasi") ],
    failedLoginAttempts := [] }

/-- GetStudents (lines 50-54): returns the record collection. -/
def GetStudents (sm : ManagerState) : List Student :=
  sm.students

/-- The lockout test of Login line 101: attempts, exists := m[id];
exists and attempts >= 3. -/
def lockoutReached (m : List (String × Nat)) (id : String) : Bool :=
  match mapLookup m id with
  | some attempts => decide (3 ≤ attempts)
  | none => false

/-- The Login success message of line 109. -/
def loginSuccessMsg (name programName : String) : String :=
  "Login berhasil: Selamat datang " ++ name ++
    "! Kamu terdaftar di program studi: " ++ programName

/-- Login (lines 90-118).  Order of checks as in the source: empty id,
empty name, lockout, then the linear scan of the record collection.  The
scan reports the same generic message for an unknown id and for a known id
with a mismatched name, incrementing the counter in both cases; a matching
record resets the counter to zero.  A read of the catalog with a missing
key yields the empty string, as a Go map read does. -/
def Login (sm : ManagerState) (id name : String) :
    Except String String × ManagerState :=
  if id = "" then
    (Except.error "Login gagal: ID tidak boleh kosong", sm)
  else if name = "" then
    (Except.error "Login gagal: Nama tidak boleh kosong", sm)
  else if lockoutReached sm.failedLoginAttempts id then
    (Except.error "Login gagal: Batas maksimum login terlampaui", sm)
  else
    match sm.students.find? (fun s => s.ID == id) with
    | some student =>
        if student.Name = name then
          (Except.ok (loginSuccessMsg student.Name
              ((mapLookup sm.studentStudyPrograms student.StudyProgram).getD "")),
           { sm with failedLoginAttempts := mapSet sm.failedLoginAttempts id 0 })
        else
          (Except.error "Login gagal: data mahasiswa tidak ditemukan",
           { sm with failedLoginAttempts := mapIncr sm.failedLoginAttempts id })
    | none =>
        (Except.error "Login gagal: data mahasiswa tidak ditemukan",
         { sm with failedLoginAttempts := mapIncr sm.failedLoginAttempts id })

/-- Register (lines 120-142).  Checks in source order: any empty field,
program code absent from the catalog, duplicate id; otherwise the new
record is appended at the end of the collection. -/
def Register (sm : ManagerState) (id name studyProgram : String) :
    Except String String × ManagerState :=
  if id = "" ∨ name = "" ∨ studyProgram = "" then
    (Except.error "ID, Name or StudyProgram is undefined!", sm)
  else
    match mapLookup sm.studentStudyPrograms studyProgram with
    | none =>
        (Except.error ("Study program " ++ studyProgram ++ " is not found"), sm)
    | some _ =>
        if sm.students.any (fun s => s.ID == id) then
          (Except.error "Registrasi gagal: id sudah digunakan", sm)
        else
          (Except.ok ("Registrasi berhasil: " ++ name ++ " (" ++ studyProgram ++ ")"),
           { sm with students :=
               sm.students ++ [{ ID := id, Name := name, StudyProgram := studyProgram }] })

/-- GetStudyProgram (lines 144-149): catalog lookup, no state change. -/
def GetStudyProgram (sm : ManagerState) (code : String) : Except String String :=
  match mapLookup sm.studentStudyPrograms code with
  | some program => Except.ok program
  | none => Except.error "program studi tidak ditemukan"

/-- A modifier takes a student and returns an optional error message
together with the resulting record.  This embeds the Go
model.StudentModifier, func(s *model.Student) error: the pointer argument
means a modifier may rewrite the record even when it also reports an
error, so the resulting record is returned in every case. -/
def StudentModifier : Type :=
  Student → Option String × Student

/-- The scan of ModifyStudent lines 155-163 over the record list: the
first record whose Name equals the argument is handed to the modifier and
replaced by whatever the modifier leaves in place; the error, if any, is
returned as is; records before and after the match are untouched. -/
def modifyFirst (name : String) (fn : StudentModifier) :
    List Student → Except String String × List Student
  | [] => (Except.error "Mahasiswa tidak ditemukan", [])
  | s :: rest =>
      if s.Name = name then
        match fn s with
        | (some e, s1) => (Except.error e, s1 :: rest)
        | (none, s1) =>
            (Except.ok "Program studi mahasiswa berhasil diubah.", s1 :: rest)
      else
        let r := modifyFirst name fn rest
        (r.1, s :: r.2)

/-- ModifyStudent (lines 151-164). -/
def ModifyStudent (sm : ManagerState) (name : String) (fn : StudentModifier) :
    Except String String × ManagerState :=
  let r := modifyFirst name fn sm.students
  (r.1, { sm with students := r.2 })

/-- ChangeStudyProgram (lines 166-174): the modifier validates the new
code against the catalog before touching the record, so on error the
record is unchanged. -/
def ChangeStudyProgram (sm : ManagerState) (programStudi : String) :
    StudentModifier :=
  fun s =>
    match mapLookup sm.studentStudyPrograms programStudi with
    | none => (some "program studi tidak valid", s)
    | some _ => (none, { s with StudyProgram := programStudi })

/-- The consumer loop body of ImportStudents lines 196-203 on one batch:
register each candidate in order; the first registration error aborts with
that error and the state reached so far (Register leaves the state
unchanged on error, so the state is the one after the earlier successes). -/
def importConsumeBatch (sm : ManagerState) :
    List Student → Option String × ManagerState
  | [] => (none, sm)
  | stu :: rest =>
      match Register sm stu.ID stu.Name stu.StudyProgram with
      | (Except.ok _, sm1) => importConsumeBatch sm1 rest
      | (Except.error e, _) => (some e, sm)

/-- ImportStudents (lines 176-205).  Each source goroutine sends its batch
on the channel only when its read succeeded (lines 184-187); a failed read
sends nothing, so the whole batch of that source is dropped and its error
is never surfaced.  The channel delivery order across sources is chosen by
the scheduler, so the embedding takes the arrival-ordered list of read
outcomes as an explicit argument and is proved about every order.  The
consumer registers batch after batch and aborts the whole import on the
first registration error. -/
def ImportStudents (sm : ManagerState) :
    List (Except String (List Student)) → Option String × ManagerState
  | [] => (none, sm)
  | Except.error _ :: rest => ImportStudents sm rest
  | Except.ok batch :: rest =>
      match importConsumeBatch sm batch with
      | (none, sm1) => ImportStudents sm1 rest
      | (some e, sm1) => (some e, sm1)

/-- The operations the CLI can drive against the store, for the uniqueness
invariant: Register, Login, ModifyStudent with ChangeStudyProgram (as the
menu wires it), and ImportStudents with an arbitrary arrival-ordered list
of read outcomes. -/
inductive StoreOp
  | reg (id name program : String)
  | login (id name : String)
  | modify (name program : String)
  | importOp (reads : List (Except String (List Student)))

/-- Run one operation for its state effect. -/
def applyOp (sm : ManagerState) : StoreOp → ManagerState
  | StoreOp.reg id name program => (Register sm id name program).2
  | StoreOp.login id name => (Login sm id name).2
  | StoreOp.modify name program =>
      (ModifyStudent sm name (ChangeStudyProgram sm program)).2
  | StoreOp.importOp reads => (ImportStudents sm reads).2

/-- Run a sequence of operations from a starting state. -/
def runOps (sm : ManagerState) (ops : List StoreOp) : ManagerState :=
  ops.foldl applyOp sm

/-
SubmitAssignments (lines 212-254) runs workerCount = 4 worker goroutines
over a jobs channel filled with 1..numAssignments and then closed; each
worker repeatedly takes the next job, performs the simulated unit of work,
and sends one result string on the results channel, which the caller
drains.  We embed this as a labelled transition system: a scheduler state
holds the jobs still in the channel (in send order), what each of the four
workers is currently processing, and the results drained so far as
(worker, job) pairs rendered by assignmentResult.  A step either lets an
idle worker take the head job of the open channel, or lets a busy worker
finish its job and deliver its result.  The nondeterminism of the Go
scheduler is exactly the choice of which constructor fires next.  The
wall-clock measurement and the two threshold warnings (lines 245-253) only
print diagnostics after the result loop has finished and are not part of
the state.
-/

/-- Worker pool size, line 219. -/
def workerCount : Nat := 4

/-- The result message a worker sends (line 226); workers are numbered
from 1 in the source loop, so list index w renders as worker w + 1. -/
def assignmentResult (worker assignment : Nat) : String :=
  "Worker " ++ toString worker ++ ": Finished assignment " ++ toString assignment

/-- A state of the worker pool: pending jobs still in the channel, the job
each of the workerCount workers is processing (none when idle), and the
(worker index, job) pairs already delivered, in delivery order. -/
structure SubmitState where
  pending : List Nat
  busy : List (Option Nat)
  delivered : List (Nat × Nat)
deriving DecidableEq, Repr

/-- The initial state of SubmitAssignments numAssignments: jobs 1..n
queued in order, all workers idle, nothing delivered. -/
def submitInit (numAssignments : Nat) : SubmitState :=
  { pending := List.range' 1 numAssignments,
    busy := List.replicate workerCount none,
    delivered := [] }

/-- One scheduler step: an idle worker takes the next job from the
channel, or a busy worker completes its job and its result is drained. -/
inductive SubmitStep : SubmitState → SubmitState → Prop
  | take (s : SubmitState) (w job : Nat) (rest : List Nat)
      (hw : s.busy.get? w = some none) (hp : s.pending = job :: rest) :
      SubmitStep s { pending := rest, busy := s.busy.set w (some job),
                     delivered := s.delivered }
  | finish (s : SubmitState) (w job : Nat)
      (hw : s.busy.get? w = some (some job)) :
      SubmitStep s { pending := s.pending, busy := s.busy.set w none,
                     delivered := s.delivered ++ [(w, job)] }

/-- Zero or more scheduler steps. -/
inductive SubmitReach : SubmitState → SubmitState → Prop
  | refl (s : SubmitState) : SubmitReach s s
  | tail {s t u : SubmitState} :
      SubmitReach s t → SubmitStep t u → SubmitReach s u

/-- A finished run: the channel is drained and every worker is idle, so
the range loop of every worker has exited and the results channel closed. -/
def SubmitDone (s : SubmitState) : Prop :=
  s.pending = [] ∧ ∀ w ∈ s.busy, w = none

instance (s : SubmitState) : Decidable (SubmitDone s) := by
  unfold SubmitDone
  infer_instance

/-- The multiset of job numbers currently accounted for by a state:
still pending, in the hands of a worker, or already delivered. -/
def jobsOf (s : SubmitState) : List Nat :=
  s.pending ++ s.busy.reduceOption ++ s.delivered.map Prod.snd

/-
Lock instrumentation for claim C9.  InMemoryStudentManager embeds a
sync.Mutex.  Each method body is abstracted to its sequence of lock events
and accesses to the shared fields (students, studentStudyPrograms,
failedLoginAttempts), in source order:
- Login (90-118): sm.Lock() / deferred sm.Unlock() around reads of
  failedLoginAttempts, students, studentStudyPrograms and the counter write;
- GetStudents (50-54): sm.Lock() / deferred sm.Unlock() around the read;
- ModifyStudent (151-164): sm.Lock() / deferred sm.Unlock() around the
  scan and in-place update;
- Register (120-142): no sm.Lock() call at all; it reads
  studentStudyPrograms, scans students and appends to students unlocked;
- GetStudyProgram (144-149): no sm.Lock() call; it reads
  studentStudyPrograms unlocked.
-/

/-- A lock event or a shared-field access, in the order the method body
performs them. -/
inductive LockEv
  | acquire
  | release
  | sharedAccess
deriving DecidableEq, Repr

/-- Event trace of Login: Lock (91), defer Unlock (92), read of
failedLoginAttempts (101), scan of students (105), write of
failedLoginAttempts and read of studentStudyPrograms (108-116). -/
def loginTrace : List LockEv :=
  [LockEv.acquire, LockEv.sharedAccess, LockEv.sharedAccess,
   LockEv.sharedAccess, LockEv.release]

/-- Event trace of GetStudents: Lock (51), read of students (53),
deferred Unlock (52). -/
def getStudentsTrace : List LockEv :=
  [LockEv.acquire, LockEv.sharedAccess, LockEv.release]

/-- Event trace of ModifyStudent: Lock (152), scan of students (155),
in-place write through the modifier (157), deferred Unlock (153). -/
def modifyStudentTrace : List LockEv :=
  [LockEv.acquire, LockEv.sharedAccess, LockEv.sharedAccess, LockEv.release]

/-- Event trace of Register: read of studentStudyPrograms (125), scan of
students (129), append to students (140) - and no Lock or Unlock call
anywhere in lines 120-142. -/
def registerTrace : List LockEv :=
  [LockEv.sharedAccess, LockEv.sharedAccess, LockEv.sharedAccess]

/-- Event trace of GetStudyProgram: read of studentStudyPrograms (145),
with no Lock or Unlock call in lines 144-149. -/
def getStudyProgramTrace : List LockEv :=
  [LockEv.sharedAccess]

/-- Checks that every shared access in a trace happens while the lock
depth is positive, starting from the given depth. -/
def accessesLocked : Nat → List LockEv → Bool
  | _, [] => true
  | d, LockEv.acquire :: r => accessesLocked (d + 1) r
  | d, LockEv.release :: r => accessesLocked (d - 1) r
  | d, LockEv.sharedAccess :: r => decide (0 < d) && accessesLocked d r

/-- A seed state whose counter for A12345 has already reached the lockout
threshold, used to exercise the lockout path at a concrete input. -/
def lockedSeed : ManagerState :=
  { NewInMemoryStudentManager with failedLoginAttempts := [("A12345", 3)] }

example :
    (Login NewInMemoryStudentManager "A12345" "Aditira").1 =
      Except.ok (loginSuccessMsg "Aditira" "Teknik Informatika") := by
  decide

example :
    (Register NewInMemoryStudentManager "Z00000" "New Student" "XX").1 =
      Except.error "Study program XX is not found" := by
  decide

example :
    (Login (Login NewInMemoryStudentManager "A12345" "Wrong").2 "A12345" "Wrong").2.failedLoginAttempts =
      [("A12345", 2)] := by
  decide

theorem mapLookup_mapSet_self {β : Type} (m : List (String × β)) (k : String) (v : β) :
    mapLookup (mapSet m k v) k = some v := by
  induction m with
  | nil => simp [mapSet, mapLookup]
  | cons hd tl ih =>
      obtain ⟨k1, v1⟩ := hd
      by_cases h : k1 = k
      · simp [mapSet, h, mapLookup]
      · simp [mapSet, h, mapLookup, ih]

theorem mapLookup_mapSet_ne {β : Type} (m : List (String × β)) (k key : String)
    (v : β) (h : k ≠ key) :
    mapLookup (mapSet m k v) key = mapLookup m key := by
  induction m with
  | nil => simp [mapSet, mapLookup, h]
  | cons hd tl ih =>
      obtain ⟨k1, v1⟩ := hd
      by_cases h1 : k1 = k
      · simp [mapSet, h1, mapLookup, h]
      · simp [mapSet, h1, mapLookup, ih]

theorem Register_keeps_attempts (sm : ManagerState) (i n p : String) :
    ((Register sm i n p).2).failedLoginAttempts = sm.failedLoginAttempts := by
  unfold Register
  split
  · rfl
  · split
    · rfl
    · split
      · rfl
      · rfl

theorem ModifyStudent_keeps_attempts (sm : ManagerState) (name : String)
    (fn : StudentModifier) :
    ((ModifyStudent sm name fn).2).failedLoginAttempts = sm.failedLoginAttempts := rfl

theorem importConsumeBatch_keeps_attempts (batch : List Student) :
    ∀ sm : ManagerState,
      ((importConsumeBatch sm batch).2).failedLoginAttempts = sm.failedLoginAttempts := by
  induction batch with
  | nil => intro sm; rfl
  | cons stu rest ih =>
      intro sm
      unfold importConsumeBatch
      have hkeep := Register_keeps_attempts sm stu.ID stu.Name stu.StudyProgram
      cases hreg : Register sm stu.ID stu.Name stu.StudyProgram with
      | mk r sm1 =>
          rw [hreg] at hkeep
          cases r with
          | ok msg => simpa [hreg, ih sm1] using hkeep
          | error e => simp [hreg]

theorem ImportStudents_keeps_attempts (reads : List (Except String (List Student))) :
    ∀ sm : ManagerState,
      ((ImportStudents sm reads).2).failedLoginAttempts = sm.failedLoginAttempts := by
  induction reads with
  | nil => intro sm; rfl
  | cons hd rest ih =>
      intro sm
      cases hd with
      | error e => simpa [ImportStudents] using ih sm
      | ok batch =>
          have hkeep := importConsumeBatch_keeps_attempts batch sm
          cases hbatch : importConsumeBatch sm batch with
          | mk r sm1 =>
              rw [hbatch] at hkeep
              cases r with
              | none => simpa [ImportStudents, hbatch, ih sm1] using hkeep
              | some e => simpa [ImportStudents, hbatch] using hkeep

/-- C10: with an empty id or an empty name, Login fails with the matching
invalid-input message and returns the state completely unchanged, so no
attempt counter is created or incremented; and because this holds for
every state, including one whose counter for the id has already reached
the lockout threshold, the empty-input check precedes the lockout check. -/
theorem Login_empty_input_rejected (sm : ManagerState) (id name : String) :
    Login sm "" name = (Except.error "Login gagal: ID tidak boleh kosong", sm)
    ∧ (id ≠ "" →
        Login sm id "" = (Except.error "Login gagal: Nama tidak boleh kosong", sm)) := by
  constructor
  · simp [Login]
  · intro hid
    simp [Login, hid]

theorem Login_empty_input_rejected_witness :
    Login lockedSeed "A12345" "" =
      (Except.error "Login gagal: Nama tidak boleh kosong", lockedSeed) :=
  (Login_empty_input_rejected lockedSeed "A12345" "x").2 (by decide)

/-- C1: once the failed-login counter of a non-empty id has reached 3,
Login with any non-empty name - correct or not - fails with the lockout
message before the record collection is even consulted, and leaves the
state unchanged; moreover no other store operation (Register,
ModifyStudent, ImportStudents) ever changes the attempt counters, so the
id stays locked out for the rest of the process lifetime. -/
theorem Login_lockedOut_permanent (sm : ManagerState) (id name : String)
    (hid : id ≠ "") (hname : name ≠ "") (k : Nat)
    (hk : mapLookup sm.failedLoginAttempts id = some k) (h3 : 3 ≤ k) :
    Login sm id name = (Except.error "Login gagal: Batas maksimum login terlampaui", sm)
    ∧ (∀ i n p, ((Register sm i n p).2).failedLoginAttempts = sm.failedLoginAttempts)
    ∧ (∀ nm fn, ((ModifyStudent sm nm fn).2).failedLoginAttempts = sm.failedLoginAttempts)
    ∧ (∀ reads, ((ImportStudents sm reads).2).failedLoginAttempts = sm.failedLoginAttempts) := by
  refine ⟨?_, ?_, ?_, ?_⟩
  · simp [Login, hid, hname, lockoutReached, hk, h3]
  · intro i n p
    exact Register_keeps_attempts sm i n p
  · intro nm fn
    exact ModifyStudent_keeps_attempts sm nm fn
  · intro reads
    exact ImportStudents_keeps_attempts reads sm

theorem Login_lockedOut_permanent_witness :
    Login lockedSeed "A12345" "Aditira" =
      (Except.error "Login gagal: Batas maksimum login terlampaui", lockedSeed) :=
  (Login_lockedOut_permanent lockedSeed "A12345" "Aditira"
    (by decide) (by decide) 3 (by decide) (by decide)).1

/-- C3: for non-empty, non-locked-out inputs, the error Login returns when
the id matches no record is literally the same value as the error it
returns when the id matches a record whose Name differs, in any two store
states: a caller cannot tell from the result which field was wrong. -/
theorem Login_credential_failures_indistinguishable
    (sm1 sm2 : ManagerState) (id1 name1 id2 name2 : String)
    (hid1 : id1 ≠ "") (hname1 : name1 ≠ "")
    (hid2 : id2 ≠ "") (hname2 : name2 ≠ "")
    (hl1 : lockoutReached sm1.failedLoginAttempts id1 = false)
    (hl2 : lockoutReached sm2.failedLoginAttempts id2 = false)
    (h1 : sm1.students.find? (fun s => s.ID == id1) = none)
    (s2 : Student) (h2 : sm2.students.find? (fun s => s.ID == id2) = some s2)
    (hn2 : s2.Name ≠ name2) :
    (Login sm1 id1 name1).1 = (Login sm2 id2 name2).1
    ∧ (Login sm1 id1 name1).1 =
        Except.error "Login gagal: data mahasiswa tidak ditemukan" := by
  have e1 : (Login sm1 id1 name1).1 =
      Except.error "Login gagal: data mahasiswa tidak ditemukan" := by
    simp [Login, hid1, hname1, hl1, h1]
  have e2 : (Login sm2 id2 name2).1 =
      Except.error "Login gagal: data mahasiswa tidak ditemukan" := by
    simp [Login, hid2, hname2, hl2, h2, hn2]
  exact ⟨e1.trans e2.symm, e1⟩

theorem Login_credential_failures_indistinguishable_witness :
    (Login NewInMemoryStudentManager "Z9999" "Surya").1 =
      (Login NewInMemoryStudentManager "A12345" "Surya").1 :=
  (Login_credential_failures_indistinguishable
    NewInMemoryStudentManager NewInMemoryStudentManager "Z9999" "Surya" "A12345" "Surya"
    (by decide) (by decide) (by decide) (by decide) (by decide) (by decide) (by decide)
    { ID := "A12345", Name := "Aditira", StudyProgram := "TI" }
    (by decide) (by decide)).1

/-- C4: Register rejects any empty field with the invalid-input error,
then a program code absent from the catalog with the unknown-program
error (in particular at the concrete input Z00000/New Student/XX on the
seeded state), then an id already present with the duplicate-id error, all
leaving the state unchanged; otherwise it appends the new record at the
end of the collection, growing it by exactly one. -/
theorem Register_spec (sm : ManagerState) (id name prog : String) :
    ((id = "" ∨ name = "" ∨ prog = "") →
        Register sm id name prog =
          (Except.error "ID, Name or StudyProgram is undefined!", sm))
    ∧ (id ≠ "" → name ≠ "" → prog ≠ "" →
        mapLookup sm.studentStudyPrograms prog = none →
        Register sm id name prog =
          (Except.error ("Study program " ++ prog ++ " is not found"), sm))
    ∧ (∀ pn, id ≠ "" → name ≠ "" → prog ≠ "" →
        mapLookup sm.studentStudyPrograms prog = some pn →
        sm.students.any (fun s => s.ID == id) = true →
        Register sm id name prog =
          (Except.error "Registrasi gagal: id sudah digunakan", sm))
    ∧ (∀ pn, id ≠ "" → name ≠ "" → prog ≠ "" →
        mapLookup sm.studentStudyPrograms prog = some pn →
        sm.students.any (fun s => s.ID == id) = false →
        (Register sm id name prog).1 =
            Except.ok ("Registrasi berhasil: " ++ name ++ " (" ++ prog ++ ")")
        ∧ (Register sm id name prog).2.students =
            sm.students ++ [{ ID := id, Name := name, StudyProgram := prog }]
        ∧ ((Register sm id name prog).2.students).length = sm.students.length + 1)
    ∧ Register NewInMemoryStudentManager "Z00000" "New Student" "XX" =
        (Except.error "Study program XX is not found", NewInMemoryStudentManager) := by
  refine ⟨?_, ?_, ?_, ?_, ?_⟩
  · intro h
    rcases h with h | h | h <;> simp [Register, h]
  · intro hid hname hprog hl
    simp [Register, hid, hname, hprog, hl]
  · intro pn hid hname hprog hl ha
    simp [Register, hid, hname, hprog, hl, ha]
  · intro pn hid hname hprog hl ha
    refine ⟨?_, ?_, ?_⟩ <;> simp [Register, hid, hname, hprog, hl, ha]
  · decide

theorem Register_spec_witness :
    (Register NewInMemoryStudentManager "C77777" "Budi" "SI").2.students =
      NewInMemoryStudentManager.students ++
        [{ ID := "C77777", Name := "Budi", StudyProgram := "SI" }] :=
  ((Register_spec NewInMemoryStudentManager "C77777" "Budi" "SI").2.2.2.1
    "Sistem Informasi" (by decide) (by decide) (by decide) (by decide) (by decide)).2.1

/-- C2: the effect of Login on the attempt counters, case by case: an
empty-input rejection and a lockout rejection leave the whole state
unchanged; a successful login writes zero to the counter of that id; an
unknown id or a known id with a mismatched name increments the counter of
that id by exactly one (a missing entry counting as zero); and in every
case the counter of any other id is untouched. -/
theorem Login_counter_update (sm : ManagerState) (id name : String) :
    ((id = "" ∨ name = "") → (Login sm id name).2 = sm)
    ∧ (id ≠ "" → name ≠ "" → lockoutReached sm.failedLoginAttempts id = true →
        (Login sm id name).2 = sm)
    ∧ (∀ s, id ≠ "" → name ≠ "" → lockoutReached sm.failedLoginAttempts id = false →
        sm.students.find? (fun x => x.ID == id) = some s → s.Name = name →
        mapLookup ((Login sm id name).2).failedLoginAttempts id = some 0)
    ∧ (id ≠ "" → name ≠ "" → lockoutReached sm.failedLoginAttempts id = false →
        sm.students.find? (fun x => x.ID == id) = none →
        mapLookup ((Login sm id name).2).failedLoginAttempts id =
          some ((mapLookup sm.failedLoginAttempts id).getD 0 + 1))
    ∧ (∀ s, id ≠ "" → name ≠ "" → lockoutReached sm.failedLoginAttempts id = false →
        sm.students.find? (fun x => x.ID == id) = some s → s.Name ≠ name →
        mapLookup ((Login sm id name).2).failedLoginAttempts id =
          some ((mapLookup sm.failedLoginAttempts id).getD 0 + 1))
    ∧ (∀ other, other ≠ id →
        mapLookup ((Login sm id name).2).failedLoginAttempts other =
          mapLookup sm.failedLoginAttempts other) := by
  refine ⟨?_, ?_, ?_, ?_, ?_, ?_⟩
  · intro h
    rcases h with h | h
    · simp [Login, h]
    · by_cases hid : id = "" <;> simp [Login, h, hid]
  · intro hid hname hl
    simp [Login, hid, hname, hl]
  · intro s hid hname hl hf hn
    simp [Login, hid, hname, hl, hf, hn, mapLookup_mapSet_self]
  · intro hid hname hl hf
    simp [Login, hid, hname, hl, hf, mapIncr, mapLookup_mapSet_self]
  · intro s hid hname hl hf hn
    simp [Login, hid, hname, hl, hf, hn, mapIncr, mapLookup_mapSet_self]
  · intro other hother
    by_cases hid : id = ""
    · simp [Login, hid]
    · by_cases hname : name = ""
      · simp [Login, hid, hname]
      · by_cases hl : lockoutReached sm.failedLoginAttempts id = true
        · simp [Login, hid, hname, hl]
        · cases hf : sm.students.find? (fun x => x.ID == id) with
          | none =>
              simp [Login, hid, hname, hl, hf, mapIncr,
                mapLookup_mapSet_ne _ _ _ _ (Ne.symm hother)]
          | some s =>
              by_cases hn : s.Name = name
              · simp [Login, hid, hname, hl, hf, hn,
                  mapLookup_mapSet_ne _ _ _ _ (Ne.symm hother)]
              · simp [Login, hid, hname, hl, hf, hn, mapIncr,
                  mapLookup_mapSet_ne _ _ _ _ (Ne.symm hother)]

theorem Login_counter_update_witness :
    mapLookup ((Login NewInMemoryStudentManager "A12345" "Wrong").2).failedLoginAttempts
        "A12345" = some 1 :=
  (((Login_counter_update NewInMemoryStudentManager "A12345" "Wrong").2.2.2.2.1
    { ID := "A12345", Name := "Aditira", StudyProgram := "TI" }
    (by decide) (by decide) (by decide) (by decide) (by decide)).trans (by decide))

theorem modifyFirst_no_match (name : String) (fn : StudentModifier) :
    ∀ l : List Student, (∀ s ∈ l, s.Name ≠ name) →
      modifyFirst name fn l = (Except.error "Mahasiswa tidak ditemukan", l) := by
  intro l
  induction l with
  | nil => intro _; rfl
  | cons s rest ih =>
      intro h
      have hs : s.Name ≠ name := h s (List.mem_cons_self s rest)
      have hrest := ih (fun t ht => h t (List.mem_cons_of_mem s ht))
      simp [modifyFirst, hs, hrest]

theorem modifyFirst_first_match (name : String) (fn : StudentModifier)
    (s : Student) (post : List Student) (hs : s.Name = name) :
    ∀ pre : List Student, (∀ t ∈ pre, t.Name ≠ name) →
      modifyFirst name fn (pre ++ s :: post) =
        ((match (fn s).1 with
          | some e => Except.error e
          | none => Except.ok "Program studi mahasiswa berhasil diubah."),
         pre ++ (fn s).2 :: post) := by
  intro pre
  induction pre with
  | nil =>
      intro _
      cases hfn : fn s with
      | mk o s1 =>
          cases o with
          | none => simp [modifyFirst, hs, hfn]
          | some e => simp [modifyFirst, hs, hfn]
  | cons t pre2 ih =>
      intro h
      have ht : t.Name ≠ name := h t (List.mem_cons_self t pre2)
      have hpre2 := ih (fun u hu => h u (List.mem_cons_of_mem t hu))
      simp [modifyFirst, ht, hpre2]

/-- C6: ModifyStudent with no record of the given name fails with the
not-found message and leaves the state unchanged; when the collection
splits as pre ++ s :: post with s the first record named name, the
modifier is applied to s alone - the result collection is pre with the
modified record and post, every other record exactly as before - with the
modifier error, if any, returned unchanged; and ChangeStudyProgram with a
code absent from the catalog reports the invalid-program error without
touching the record, so the store survives such a call unchanged. -/
theorem ModifyStudent_spec (sm : ManagerState) (name : String) (fn : StudentModifier) :
    ((∀ s ∈ sm.students, s.Name ≠ name) →
        ModifyStudent sm name fn = (Except.error "Mahasiswa tidak ditemukan", sm))
    ∧ (∀ pre s post, sm.students = pre ++ s :: post →
        (∀ t ∈ pre, t.Name ≠ name) → s.Name = name →
        (ModifyStudent sm name fn).2.students = pre ++ (fn s).2 :: post
        ∧ ((fn s).1 = none → (ModifyStudent sm name fn).1 =
            Except.ok "Program studi mahasiswa berhasil diubah.")
        ∧ (∀ e, (fn s).1 = some e →
            (ModifyStudent sm name fn).1 = Except.error e))
    ∧ (∀ prog s, mapLookup sm.studentStudyPrograms prog = none →
        ChangeStudyProgram sm prog s = (some "program studi tidak valid", s))
    ∧ (∀ prog pre s post, sm.students = pre ++ s :: post →
        (∀ t ∈ pre, t.Name ≠ name) → s.Name = name →
        mapLookup sm.studentStudyPrograms prog = none →
        (ModifyStudent sm name (ChangeStudyProgram sm prog)).1 =
            Except.error "program studi tidak valid"
        ∧ (ModifyStudent sm name (ChangeStudyProgram sm prog)).2 = sm) := by
  have hchange : ∀ prog s, mapLookup sm.studentStudyPrograms prog = none →
      ChangeStudyProgram sm prog s = (some "program studi tidak valid", s) := by
    intro prog s hl
    simp [ChangeStudyProgram, hl]
  refine ⟨?_, ?_, hchange, ?_⟩
  · intro h
    have := modifyFirst_no_match name fn sm.students h
    simp [ModifyStudent, this]
  · intro pre s post hsplit hpre hs
    have hm := modifyFirst_first_match name fn s post hs pre hpre
    refine ⟨?_, ?_, ?_⟩
    · simp [ModifyStudent, hsplit, hm]
    · intro hnone
      simp [ModifyStudent, hsplit, hm, hnone]
    · intro e he
      simp [ModifyStudent, hsplit, hm, he]
  · intro prog pre s post hsplit hpre hs hl
    have hm := modifyFirst_first_match name (ChangeStudyProgram sm prog) s post hs pre hpre
    rw [hchange prog s hl] at hm
    constructor
    · simp [ModifyStudent, hsplit, hm]
    · have h2 : (ModifyStudent sm name (ChangeStudyProgram sm prog)).2 =
          { sm with students := pre ++ s :: post } := by
        simp [ModifyStudent, hsplit, hm]
      rw [h2, ← hsplit]

theorem ModifyStudent_spec_witness :
    (ModifyStudent NewInMemoryStudentManager "Dito"
        (ChangeStudyProgram NewInMemoryStudentManager "SI")).2.students =
      [{ ID := "A12345", Name := "Aditira", StudyProgram := "TI" }] ++
        { ID := "B21313", Name := "Dito", StudyProgram := "SI" } ::
          [{ ID := "A34555", Name := "Afis", StudyProgram := "MI" }] :=
  (((ModifyStudent_spec NewInMemoryStudentManager "Dito"
      (ChangeStudyProgram NewInMemoryStudentManager "SI")).2.1
    [{ ID := "A12345", Name := "Aditira", StudyProgram := "TI" }]
    { ID := "B21313", Name := "Dito", StudyProgram := "TK" }
    [{ ID := "A34555", Name := "Afis", StudyProgram := "MI" }]
    (by decide) (by decide) (by decide)).1).trans (by decide)

theorem importConsumeBatch_cons (sm : ManagerState) (stu : Student)
    (rest : List Student) :
    importConsumeBatch sm (stu :: rest) =
      (match Register sm stu.ID stu.Name stu.StudyProgram with
       | (Except.ok _, sm1) => importConsumeBatch sm1 rest
       | (Except.error e, _) => (some e, sm)) := rfl

theorem importConsumeBatch_append_of_ok (b : List Student) :
    ∀ (a : List Student) (sm sm1 : ManagerState),
      importConsumeBatch sm a = (none, sm1) →
      importConsumeBatch sm (a ++ b) = importConsumeBatch sm1 b := by
  intro a
  induction a with
  | nil =>
      intro sm sm1 h
      have hsm : sm = sm1 := congrArg Prod.snd h
      rw [List.nil_append, hsm]
  | cons stu rest ih =>
      intro sm sm1 h
      rw [importConsumeBatch_cons] at h
      rw [List.cons_append, importConsumeBatch_cons]
      cases hreg : Register sm stu.ID stu.Name stu.StudyProgram with
      | mk r sm2 =>
          rw [hreg] at h
          cases r with
          | ok msg => exact ih sm2 sm1 h
          | error e => exact Option.noConfusion (congrArg Prod.fst h)

theorem importConsumeBatch_error_head (sm1 : ManagerState) (stu : Student)
    (post : List Student) (e : String)
    (herr : (Register sm1 stu.ID stu.Name stu.StudyProgram).1 = Except.error e) :
    importConsumeBatch sm1 (stu :: post) = (some e, sm1) := by
  rw [importConsumeBatch_cons]
  cases hreg : Register sm1 stu.ID stu.Name stu.StudyProgram with
  | mk r sm2 =>
      rw [hreg] at herr
      cases r with
      | ok msg => exact Except.noConfusion herr
      | error e2 =>
          have he : e2 = e := Except.error.inj herr
          subst he
          rfl

/-- C7: the import failure policy.  First, a failed source read is
dropped: the import of any arrival order containing a read error equals
the import with that entry removed, so the batch contributes nothing and
the read error never reaches the caller.  Second, the first registration
failure during consumption aborts immediately with exactly that error,
the state being the one the earlier successful registrations of the
batch produced - later candidates of the batch and all later batches are
never consumed, and nothing is rolled back. -/
theorem ImportStudents_failure_policy :
    (∀ (sm : ManagerState) (pre post : List (Except String (List Student))) (e : String),
        ImportStudents sm (pre ++ Except.error e :: post) = ImportStudents sm (pre ++ post))
    ∧ (∀ (sm sm1 : ManagerState) (pre post : List Student) (stu : Student) (e : String)
        (rest : List (Except String (List Student))),
        importConsumeBatch sm pre = (none, sm1) →
        (Register sm1 stu.ID stu.Name stu.StudyProgram).1 = Except.error e →
        ImportStudents sm (Except.ok (pre ++ stu :: post) :: rest) = (some e, sm1)) := by
  constructor
  · intro sm pre post e
    induction pre generalizing sm with
    | nil => simp [ImportStudents]
    | cons hd rest ih =>
        cases hd with
        | error e2 =>
            simpa [ImportStudents] using ih _
        | ok batch =>
            simp only [List.cons_append, ImportStudents]
            cases hbatch : importConsumeBatch sm batch with
            | mk r sm1 =>
                cases r with
                | none => simpa using ih sm1
                | some e2 => simp
  · intro sm sm1 pre post stu e rest hpre herr
    have hbatch : importConsumeBatch sm (pre ++ stu :: post) = (some e, sm1) := by
      rw [importConsumeBatch_append_of_ok (stu :: post) pre sm sm1 hpre]
      exact importConsumeBatch_error_head sm1 stu post e herr
    simp [ImportStudents, hbatch]

theorem ImportStudents_failure_policy_witness :
    ImportStudents NewInMemoryStudentManager
        [Except.ok [{ ID := "A12345", Name := "Intruder", StudyProgram := "TI" },
                    { ID := "D10101", Name := "Lena", StudyProgram := "SI" }],
         Except.ok [{ ID := "E20202", Name := "Rani", StudyProgram := "MI" }]] =
      (some "Registrasi gagal: id sudah digunakan", NewInMemoryStudentManager) :=
  ImportStudents_failure_policy.2 NewInMemoryStudentManager NewInMemoryStudentManager
    [] [{ ID := "D10101", Name := "Lena", StudyProgram := "SI" }]
    { ID := "A12345", Name := "Intruder", StudyProgram := "TI" }
    "Registrasi gagal: id sudah digunakan"
    [Except.ok [{ ID := "E20202", Name := "Rani", StudyProgram := "MI" }]]
    rfl (by decide)

theorem Register_keeps_idNodup (sm : ManagerState) (id name prog : String)
    (h : (sm.students.map Student.ID).Nodup) :
    (((Register sm id name prog).2).students.map Student.ID).Nodup := by
  unfold Register
  split
  · exact h
  · split
    · exact h
    · split
      · exact h
      · rename_i hany
        have hany2 : ∀ s ∈ sm.students, s.ID ≠ id := by
          intro s hsmem heq
          exact hany (List.any_eq_true.2 ⟨s, hsmem, by simp [heq]⟩)
        simp only [List.map_append, List.map_cons, List.map_nil]
        refine List.Nodup.append h (List.nodup_singleton _) ?_
        intro a ha hb
        rw [List.mem_singleton] at hb
        obtain ⟨s, hsmem, hsid⟩ := List.mem_map.1 ha
        exact hany2 s hsmem (hsid.trans hb)

theorem Login_keeps_students (sm : ManagerState) (id name : String) :
    ((Login sm id name).2).students = sm.students := by
  unfold Login
  repeat' (first | rfl | split)

theorem ChangeStudyProgram_keeps_id (sm : ManagerState) (prog : String) (s : Student) :
    ((ChangeStudyProgram sm prog s).2).ID = s.ID := by
  unfold ChangeStudyProgram
  split <;> rfl

theorem modifyFirst_keeps_ids (name : String) (fn : StudentModifier)
    (hfn : ∀ s, ((fn s).2).ID = s.ID) :
    ∀ l : List Student, ((modifyFirst name fn l).2).map Student.ID = l.map Student.ID := by
  intro l
  induction l with
  | nil => rfl
  | cons s rest ih =>
      by_cases hs : s.Name = name
      · cases hfn2 : fn s with
        | mk o s1 =>
            have hid : s1.ID = s.ID := by
              have h3 := hfn s
              rw [hfn2] at h3
              exact h3
            cases o with
            | none => simp [modifyFirst, hs, hfn2, hid]
            | some e => simp [modifyFirst, hs, hfn2, hid]
      · simp [modifyFirst, hs, ih]

theorem importConsumeBatch_keeps_idNodup (batch : List Student) :
    ∀ sm : ManagerState, (sm.students.map Student.ID).Nodup →
      (((importConsumeBatch sm batch).2).students.map Student.ID).Nodup := by
  induction batch with
  | nil => intro sm h; exact h
  | cons stu rest ih =>
      intro sm h
      rw [importConsumeBatch_cons]
      cases hreg : Register sm stu.ID stu.Name stu.StudyProgram with
      | mk r sm2 =>
          have h2 := Register_keeps_idNodup sm stu.ID stu.Name stu.StudyProgram h
          rw [hreg] at h2
          cases r with
          | ok msg => exact ih sm2 h2
          | error e => exact h

theorem ImportStudents_keeps_idNodup (reads : List (Except String (List Student))) :
    ∀ sm : ManagerState, (sm.students.map Student.ID).Nodup →
      (((ImportStudents sm reads).2).students.map Student.ID).Nodup := by
  induction reads with
  | nil => intro sm h; exact h
  | cons hd rest ih =>
      intro sm h
      cases hd with
      | error e => exact ih sm h
      | ok batch =>
          have h2 := importConsumeBatch_keeps_idNodup batch sm h
          cases hbatch : importConsumeBatch sm batch with
          | mk r sm1 =>
              rw [hbatch] at h2
              cases r with
              | none => simpa [ImportStudents, hbatch] using ih sm1 h2
              | some e => simpa [ImportStudents, hbatch] using h2

theorem applyOp_keeps_idNodup (sm : ManagerState) (op : StoreOp)
    (h : (sm.students.map Student.ID).Nodup) :
    (((applyOp sm op).students).map Student.ID).Nodup := by
  cases op with
  | reg id name program => exact Register_keeps_idNodup sm id name program h
  | login id name =>
      unfold applyOp
      rw [Login_keeps_students]
      exact h
  | modify name program =>
      unfold applyOp ModifyStudent
      have := modifyFirst_keeps_ids name (ChangeStudyProgram sm program)
        (fun s => ChangeStudyProgram_keeps_id sm program s) sm.students
      simpa [this] using h
  | importOp reads => exact ImportStudents_keeps_idNodup reads sm h

/-- C5: starting from the seeded initial state, after any sequence of
Register, Login, ModifyStudent-with-ChangeStudyProgram and ImportStudents
operations, the record collection never holds two records with the same
ID: Register refuses an id already present before appending, and no other
operation changes the ID of a record. -/
theorem ids_unique_invariant (ops : List StoreOp) :
    (((runOps NewInMemoryStudentManager ops).students).map Student.ID).Nodup := by
  have hgen : ∀ sm : ManagerState, (sm.students.map Student.ID).Nodup →
      (((runOps sm ops).students).map Student.ID).Nodup := by
    induction ops with
    | nil => intro sm h; exact h
    | cons op rest ih =>
        intro sm h
        unfold runOps
        rw [List.foldl_cons]
        exact ih (applyOp sm op) (applyOp_keeps_idNodup sm op h)
  exact hgen NewInMemoryStudentManager (by decide)

theorem reduceOption_set_some (j : Nat) :
    ∀ (l : List (Option Nat)) (w : Nat), l.get? w = some none →
      ((l.set w (some j)).reduceOption).Perm (j :: l.reduceOption) := by
  intro l
  induction l with
  | nil => intro w hw; exact Option.noConfusion hw
  | cons x t ih =>
      intro w hw
      cases w with
      | zero =>
          have hx : x = none := Option.some.inj hw
          subst hx
          simp [List.reduceOption_cons_of_some, List.reduceOption_cons_of_none]
      | succ w2 =>
          have hw2 : t.get? w2 = some none := hw
          cases x with
          | none =>
              simpa [List.reduceOption_cons_of_none] using ih w2 hw2
          | some a =>
              simp only [List.set, List.reduceOption_cons_of_some]
              exact ((ih w2 hw2).cons a).trans (List.Perm.swap j a _)

theorem reduceOption_set_none (j : Nat) :
    ∀ (l : List (Option Nat)) (w : Nat), l.get? w = some (some j) →
      (l.reduceOption).Perm (j :: (l.set w none).reduceOption) := by
  intro l
  induction l with
  | nil => intro w hw; exact Option.noConfusion hw
  | cons x t ih =>
      intro w hw
      cases w with
      | zero =>
          have hx : x = some j := Option.some.inj hw
          subst hx
          simp [List.reduceOption_cons_of_some, List.reduceOption_cons_of_none]
      | succ w2 =>
          have hw2 : t.get? w2 = some (some j) := hw
          cases x with
          | none =>
              simpa [List.reduceOption_cons_of_none] using ih w2 hw2
          | some a =>
              simp only [List.set, List.reduceOption_cons_of_some]
              exact ((ih w2 hw2).cons a).trans (List.Perm.swap j a _)

theorem jobsOf_step (s t : SubmitState) (h : SubmitStep s t) :
    (jobsOf t).Perm (jobsOf s) := by
  cases h with
  | take w job rest hw hp =>
      unfold jobsOf
      rw [hp]
      have h1 := reduceOption_set_some job s.busy w hw
      exact ((List.Perm.append_right _ (List.Perm.append_left rest h1)).trans
        (List.Perm.append_right _ List.perm_middle))
  | finish w job hw =>
      unfold jobsOf
      simp only [List.map_append, List.map_cons, List.map_nil]
      have h2 := reduceOption_set_none job s.busy w hw
      have hL : List.Perm
          (s.pending ++ (s.busy.set w none).reduceOption ++
            (s.delivered.map Prod.snd ++ [job]))
          (job :: (s.pending ++ (s.busy.set w none).reduceOption ++
            s.delivered.map Prod.snd)) :=
        (List.Perm.append_left _ (List.perm_append_singleton job _)).trans
          List.perm_middle
      have hR : List.Perm
          (s.pending ++ s.busy.reduceOption ++ s.delivered.map Prod.snd)
          (job :: (s.pending ++ (s.busy.set w none).reduceOption ++
            s.delivered.map Prod.snd)) :=
        (List.Perm.append_right _ (List.Perm.append_left s.pending h2)).trans
          (List.Perm.append_right _ List.perm_middle)
      exact hL.trans hR.symm

theorem jobsOf_reach (s t : SubmitState) (h : SubmitReach s t) :
    (jobsOf t).Perm (jobsOf s) := by
  induction h with
  | refl => exact List.Perm.refl _
  | tail hreach hstep ih => exact ((jobsOf_step _ _ hstep).trans ih)

theorem reduceOption_eq_nil (l : List (Option Nat)) (h : ∀ x ∈ l, x = none) :
    l.reduceOption = [] := by
  induction l with
  | nil => rfl
  | cons x t ih =>
      have hx := h x (List.mem_cons_self x t)
      subst hx
      simpa [List.reduceOption_cons_of_none] using
        ih (fun y hy => h y (List.mem_cons_of_mem _ hy))

theorem jobsOf_init (n : Nat) : jobsOf (submitInit n) = List.range' 1 n := by
  have hrep : (List.replicate workerCount (none : Option Nat)).reduceOption = [] := by
    decide
  simp [jobsOf, submitInit, hrep]

theorem replicate_workers_no_job (w j : Nat) :
    (List.replicate workerCount (none : Option Nat)).get? w ≠ some (some j) := by
  match w with
  | 0 => exact fun h => Option.noConfusion (Option.some.inj h)
  | 1 => exact fun h => Option.noConfusion (Option.some.inj h)
  | 2 => exact fun h => Option.noConfusion (Option.some.inj h)
  | 3 => exact fun h => Option.noConfusion (Option.some.inj h)
  | n + 4 => exact fun h => Option.noConfusion h

theorem submitReach_zero (s : SubmitState) (h : SubmitReach (submitInit 0) s) :
    s = submitInit 0 := by
  induction h with
  | refl => rfl
  | tail hreach hstep ih =>
      rw [ih] at hstep
      cases hstep with
      | take w job rest hw hp => exact List.noConfusion hp
      | finish w job hw => exact absurd hw (replicate_workers_no_job w job)

/-- C8: every completed run of the worker pool started with n submitted
assignments delivers results whose job numbers are a permutation of
1..n - exactly n results, one per job, none dropped, duplicated or left
unprocessed; and from zero submitted assignments no step is possible at
all, so the run returns immediately with zero results.  The elapsed-time
thresholds of the source only print diagnostics after the result loop and
do not appear in the state. -/
theorem SubmitAssignments_exactly_n_results (n : Nat) (s : SubmitState)
    (hreach : SubmitReach (submitInit n) s) :
    (SubmitDone s →
        ((s.delivered.map Prod.snd).Perm (List.range' 1 n)
          ∧ s.delivered.length = n
          ∧ (s.delivered.map Prod.snd).Nodup))
    ∧ (n = 0 → s = submitInit 0) := by
  constructor
  · intro hdone
    obtain ⟨hp, hb⟩ := hdone
    have h := jobsOf_reach _ _ hreach
    rw [jobsOf_init] at h
    rw [jobsOf, hp, reduceOption_eq_nil s.busy hb] at h
    simp only [List.nil_append] at h
    refine ⟨h, ?_, ?_⟩
    · have hlen := h.length_eq
      rw [List.length_map, List.length_range'] at hlen
      exact hlen
    · exact h.nodup_iff.2 (List.nodup_range' 1 n)
  · intro hn
    subst hn
    exact submitReach_zero s hreach

theorem SubmitAssignments_exactly_n_results_witness :
    (([((0 : Nat), (1 : Nat))].map Prod.snd).Perm (List.range' 1 1))
    ∧ ([((0 : Nat), (1 : Nat))].length = 1) := by
  have h1 : SubmitStep (submitInit 1)
      { pending := [], busy := (submitInit 1).busy.set 0 (some 1),
        delivered := (submitInit 1).delivered } :=
    SubmitStep.take (submitInit 1) 0 1 [] rfl rfl
  have h2 : SubmitStep
      { pending := [], busy := (submitInit 1).busy.set 0 (some 1),
        delivered := (submitInit 1).delivered }
      { pending := [], busy := [none, none, none, none], delivered := [(0, 1)] } :=
    SubmitStep.finish _ 0 1 rfl
  have hreach : SubmitReach (submitInit 1)
      { pending := [], busy := [none, none, none, none], delivered := [(0, 1)] } :=
    SubmitReach.tail (SubmitReach.tail (SubmitReach.refl _) h1) h2
  have hout := (SubmitAssignments_exactly_n_results 1 _ hreach).1 (by decide)
  exact ⟨hout.1, hout.2.1⟩

/-- C9: the claim that every public store operation executes while holding
the single store lock fails on the code.  Login, GetStudents and
ModifyStudent do wrap their shared-field accesses in Lock/Unlock, but the
bodies of Register (src/main.go lines 120-142) and GetStudyProgram (lines
144-149) contain no Lock or Unlock call at all, so every one of their
accesses to the shared record collection and catalog happens with the
mutex not held. -/
theorem Register_and_GetStudyProgram_run_unlocked :
    accessesLocked 0 loginTrace = true
    ∧ accessesLocked 0 getStudentsTrace = true
    ∧ accessesLocked 0 modifyStudentTrace = true
    ∧ accessesLocked 0 registerTrace = false
    ∧ accessesLocked 0 getStudyProgramTrace = false := by
  decide

end StudentPortal
